import Mathlib

/-!
Verification of the retrieval-and-context-assembly pipeline of
`archlinux-ai-cli.py` (HTML text extraction, wiki knowledge retrieval,
prompt composition, history persistence), as a shallow embedding.

Text is modelled as `List Char` (`Str`); Python string operations
(`in`, slicing, concatenation, `strip`, `len`) become executable list
functions.  Network and backend calls become function parameters
(`fetch : Str → Option Str`, `backend : Str → Except Str Str`): the
Python code catches every exception of those calls, so their results
are modelled as `Option`/`Except` values.
-/

/-- Text as a list of characters. -/
abbrev Str := List Char

/-- Convert a Lean string literal to the `Str` model. -/
def str (s : String) : Str := s.toList

/-- Does `needle` occur at the beginning of `hay`?  (Executable.) -/
def leads : Str → Str → Bool
  | [], _ => true
  | _ :: _, [] => false
  | a :: as, b :: bs => a == b && leads as bs

/-- Python `needle in hay` for strings: substring containment.  (Executable.) -/
def occurs (needle : Str) : Str → Bool
  | [] => needle.isEmpty
  | c :: t => leads needle (c :: t) || occurs needle t

/-- Propositional form of substring containment. -/
def OccursIn (needle hay : Str) : Prop := ∃ pre post, hay = pre ++ needle ++ post

theorem leads_iff (n h : Str) : leads n h = true ↔ ∃ t, h = n ++ t := by
  induction n generalizing h with
  | nil => simp [leads]
  | cons a as ih =>
    cases h with
    | nil => simp [leads]
    | cons b bs =>
      simp only [leads, Bool.and_eq_true, beq_iff_eq, ih, List.cons_append]
      constructor
      · rintro ⟨rfl, t, rfl⟩; exact ⟨t, rfl⟩
      · rintro ⟨t, h⟩
        injection h with h1 h2
        exact ⟨h1.symm, t, h2⟩

theorem occurs_iff (n h : Str) : occurs n h = true ↔ OccursIn n h := by
  induction h with
  | nil =>
    simp only [occurs, List.isEmpty_iff, OccursIn]
    constructor
    · rintro rfl; exact ⟨[], [], rfl⟩
    · rintro ⟨pre, post, hp⟩
      rcases List.append_eq_nil.mp (List.append_eq_nil.mp hp.symm).1 with ⟨-, h2⟩
      exact h2
  | cons c t ih =>
    simp only [occurs, Bool.or_eq_true, leads_iff, ih]
    constructor
    · rintro (⟨tl, htl⟩ | ⟨pre, post, rfl⟩)
      · exact ⟨[], tl, by simpa using htl⟩
      · exact ⟨c :: pre, post, rfl⟩
    · rintro ⟨pre, post, hp⟩
      cases pre with
      | nil => exact Or.inl ⟨post, by simpa using hp⟩
      | cons p ps =>
        simp only [List.cons_append, List.cons.injEq] at hp
        exact Or.inr ⟨ps, post, hp.2⟩

/-!
## HTML Text Extractor (`WikiContentExtractor`, archlinux-ai-cli.py lines 18-45)

Python's `HTMLParser` drives the extractor through three callbacks; the
document is therefore modelled as the list of parser events in document
order, and the extractor as a fold of those callbacks over the events.
-/

/-- One callback event of Python's `HTMLParser`. -/
inductive HtmlEvent where
  | startTag (tag : String) (attrs : List (String × String))
  | endTag (tag : String)
  | data (s : String)
  deriving DecidableEq

/-- The mutable fields of `WikiContentExtractor`. -/
structure ExtractorState where
  text_content : List String
  in_content : Bool
  current_tag : Option String
  deriving DecidableEq

/-- `__init__`: `text_content = []`, `in_content = False`, `current_tag = None`. -/
def initState : ExtractorState := ⟨[], false, none⟩

/-- `self.skip_tags = {'script', 'style', 'nav', 'footer', 'header'}`. -/
def skip_tags : List String := ["script", "style", "nav", "footer", "header"]

/-- The attribute scan of `handle_starttag`: does some attribute pair set
`id` to `'mw-content-text'` or `'bodyContent'`? -/
def attrsOpenContent (attrs : List (String × String)) : Bool :=
  attrs.any (fun av => av.1 == "id" && (av.2 == "mw-content-text" || av.2 == "bodyContent"))

/-- `handle_starttag` (lines 27-32): records the tag as `current_tag` and
sets `in_content` when an `id` attribute matches a content container
(it is never cleared here, so `||` with the previous value). -/
def handle_starttag (st : ExtractorState) (tag : String)
    (attrs : List (String × String)) : ExtractorState :=
  { st with current_tag := some tag,
            in_content := st.in_content || attrsOpenContent attrs }

/-- `handle_endtag` (lines 34-36): `if tag in ['div'] and self.in_content:
self.in_content = False`.  `current_tag` is not touched. -/
def handle_endtag (st : ExtractorState) (tag : String) : ExtractorState :=
  if tag == "div" && st.in_content then { st with in_content := false } else st

/-- Membership of the optional `current_tag` in `skip_tags` (Python's
`self.current_tag not in self.skip_tags` is true when `current_tag` is `None`). -/
def tagSkipped : Option String → Bool
  | none => false
  | some t => skip_tags.contains t

/-- `handle_data` (lines 38-42): inside the content region and outside a
denylisted tag, strip the fragment and keep it when nonempty and longer
than 3 characters. -/
def handle_data (st : ExtractorState) (data : String) : ExtractorState :=
  if st.in_content && !tagSkipped st.current_tag then
    let cleaned := data.trim
    if cleaned ≠ "" ∧ 3 < cleaned.length then
      { st with text_content := st.text_content ++ [cleaned] }
    else st
  else st

/-- Dispatch one parser event to the matching callback. -/
def step (st : ExtractorState) : HtmlEvent → ExtractorState
  | .startTag tag attrs => handle_starttag st tag attrs
  | .endTag tag => handle_endtag st tag
  | .data s => handle_data st s

/-- `parser.feed(html)` from a fresh extractor: fold the callbacks over the
document's events. -/
def runExtractor (evs : List HtmlEvent) : ExtractorState :=
  evs.foldl step initState

/-- `get_text` (lines 44-45): `' '.join(self.text_content)`. -/
def get_text (st : ExtractorState) : String :=
  " ".intercalate st.text_content

/-!
## Wiki Knowledge Retriever (`get_wiki_knowledge`, lines 123-151) and
content post-processing (`fetch_wiki_content`, lines 110-117)

`fetch_wiki_content` catches every exception and returns `None` on
failure, so it is modelled as a parameter `fetch : Str → Option Str`
giving the already-extracted-and-normalized text of a page (or `none`).
The size limit of lines 113-115 is the pure function `truncateContent`.
-/

/-- Concatenate a list of strings (the `wiki_knowledge += ...` loop). -/
def cat : List Str → Str
  | [] => []
  | s :: rest => s ++ cat rest

/-- The truncation marker of line 115: `"... [content truncated, see full
page at wiki]"`. -/
def truncMarker : Str := str "... [content truncated, see full page at wiki]"

/-- Lines 113-115 of `fetch_wiki_content`: `if len(text) > 4000: text =
text[:4000] + "... [content truncated, see full page at wiki]"`. -/
def truncateContent (text : Str) : Str :=
  if 4000 < text.length then text.take 4000 ++ truncMarker else text

/-- A search result (`{'title': ..., 'url': ...}` from `search_arch_wiki`). -/
structure WikiPage where
  title : Str
  url : Str
  deriving DecidableEq

/-- The sentinel returned by `get_wiki_knowledge` when search yields no
pages (line 128). -/
def noPagesSentinel : Str :=
  str "No relevant Arch Wiki pages found. Please search the wiki manually at https://wiki.archlinux.org"

/-- The `### <title>` + `URL: <url>` head that lines 137-138 and 141-142
emit identically for fetched and failed pages. -/
def blockHead (p : WikiPage) : Str :=
  str "### " ++ p.title ++ str "\nURL: " ++ p.url ++ str "\n"

/-- The placeholder body of line 143 for a page whose fetch failed. -/
def noContentPlaceholder : Str :=
  str "(Content could not be retrieved - refer to URL)\n\n"

/-- The body of a page's block: the fetched content (lines 139) or the
placeholder (line 143). -/
def pageTail (fetch : Str → Option Str) (p : WikiPage) : Str :=
  match fetch p.title with
  | some content => str "Content:\n" ++ content ++ str "\n\n"
  | none => noContentPlaceholder

/-- The per-page block of the loop body (lines 132-143): head plus either
the fetched content or the placeholder. -/
def pageBlock (fetch : Str → Option Str) (p : WikiPage) : Str :=
  blockHead p ++ pageTail fetch p

/-- One citation-only line of the trailing section (line 149). -/
def citeLine (p : WikiPage) : Str :=
  str "- " ++ p.title ++ str ": " ++ p.url ++ str "\n"

/-- `get_wiki_knowledge` (lines 123-151), with the search result list and
the page-fetch outcome passed in: sentinel when no pages; otherwise the
fixed header, one block per fetched page (top 2 only), and — when more
than 2 results exist — the trailing citation-only list of the rest. -/
def get_wiki_knowledge (fetch : Str → Option Str) (pages : List WikiPage) : Str :=
  if pages.isEmpty then noPagesSentinel
  else
    str "=== ARCH WIKI CONTENT ===\n\n"
      ++ cat ((pages.take 2).map (pageBlock fetch))
      ++ (if 2 < pages.length then
            str "Additional relevant pages:\n" ++ cat ((pages.drop 2).map citeLine)
          else [])

/-!
## Prompt Composer (`get_ai_response`, lines 153-186, and `process_query`,
lines 188-198)

The generative backend (`self.model.generate_content`) is modelled as
`backend : Str → Except Str Str` — the Python code wraps the single call
in `try/except`, so a raised exception becomes `Except.error` with the
exception's string.  Both functions return, besides the answer string,
the number of backend invocations made, so that "called exactly once" /
"not called at all" are statable.
-/

/-- The fixed policy preamble (lines 155-172). -/
def system_prompt : Str :=
  str "You are an expert Arch Linux assistant that ONLY uses information from the official Arch Wiki.\n\nCRITICAL RULES:\n1. Base ALL answers on the Arch Wiki content provided to you\n2. If the Wiki content doesn\x27t contain the answer, say \x22The Arch Wiki content provided doesn\x27t cover this. Please check: https://wiki.archlinux.org\x22\n3. When recommending commands, ONLY use commands mentioned in the Wiki content\n4. Always cite which Wiki page the information comes from\n5. Warn about dangerous operations (rm -rf, dd, filesystem modifications, etc.)\n6. If asked about something not in the Wiki content, direct users to search the Wiki manually\n\nRESPONSE FORMAT:\n- Start with a direct answer based on Wiki content\n- Include relevant commands from the Wiki with explanations\n- Cite the Wiki page(s) you\x27re referencing\n- Add safety warnings if needed\n- Keep responses clear and concise\n\nRemember: You are a WIKI-BASED assistant. Never make up information or use knowledge outside the provided Wiki content."

/-- The assembled prompt of lines 174-180. -/
def full_prompt (user_query wiki_content : Str) : Str :=
  system_prompt ++ str "\n\n" ++ wiki_content ++ str "\n\nUser Question: " ++ user_query
    ++ str "\n\nProvide your answer based ONLY on the Arch Wiki content above. If the Wiki content doesn\x27t cover this question adequately, be honest and direct the user to search the Wiki manually."

/-- Head of the fallback string of line 186. -/
def errHead : Str := str "❌ Error getting AI response: "

/-- Tail of the fallback string of line 186 (ends in the wiki root URL). -/
def errTail : Str :=
  str "\n\nPlease check the Arch Wiki directly at: https://wiki.archlinux.org"

/-- `get_ai_response` (lines 153-186): submit the full prompt to the
backend once; on success relay its text, on failure return the fixed
fallback embedding the failure detail.  The second component counts
backend invocations (one in either case — there is no retry). -/
def get_ai_response (backend : Str → Except Str Str)
    (user_query wiki_content : Str) : Str × Nat :=
  match backend (full_prompt user_query wiki_content) with
  | .ok t => (t, 1)
  | .error e => (errHead ++ e ++ errTail, 1)

/-- The needle of line 193: `"No relevant Arch Wiki pages found"`. -/
def noPagesNeedle : Str := str "No relevant Arch Wiki pages found"

/-- `process_query` (lines 188-198) given the already-retrieved context
blob: return the blob verbatim when it CONTAINS the needle (Python `in`,
line 193), otherwise ask the backend through `get_ai_response`.  The
second component counts backend invocations. -/
def process_query (backend : Str → Except Str Str)
    (user_query wiki_content : Str) : Str × Nat :=
  if occurs noPagesNeedle wiki_content then (wiki_content, 0)
  else get_ai_response backend user_query wiki_content

/-!
## History persistence (`save_to_history`, lines 200-221)
-/

/-- One history record (lines 211-215). -/
structure HistoryEntry where
  query : Str
  response : Str
  timestamp : Str
  deriving DecidableEq

/-- `save_to_history` on the in-memory log: append the new entry, then
keep only the last 50 (`history = history[-50:]`, line 218). -/
def save_to_history (history : List HistoryEntry) (e : HistoryEntry) : List HistoryEntry :=
  let h := history ++ [e]
  h.drop (h.length - 50)

/-!
## Theorems
-/

/-- C2, claim as stated, refuted: the truncation marker appended at line
115 is a fixed string that does NOT name the source page — truncating a
4001-character text of the page titled `Pacman` appends a marker in which
the title `Pacman` never occurs. -/
theorem C2_counterexample :
    truncateContent (List.replicate 4001 'a') = List.replicate 4000 'a' ++ truncMarker
    ∧ ¬ OccursIn (str "Pacman") truncMarker := by
  constructor
  · have hlen : 4000 < (List.replicate 4001 'a' : Str).length := by
      rw [List.length_replicate]; omega
    rw [truncateContent, if_pos hlen, List.take_replicate, min_eq_left (by omega)]
  · intro h
    have hb : occurs (str "Pacman") truncMarker = true := (occurs_iff _ _).mpr h
    exact absurd hb (by decide)

/-- C2 (amended): extractor output longer than 4000 characters is cut to
exactly its first 4000 characters followed by the fixed marker `"...
[content truncated, see full page at wiki]"` — a marker that points at
the wiki generally and does not name the source page — while output of
at most 4000 characters is returned unchanged. -/
theorem C2_truncation (text : Str) :
    (4000 < text.length → truncateContent text = text.take 4000 ++ truncMarker)
    ∧ (text.length ≤ 4000 → truncateContent text = text) := by
  constructor
  · intro h; rw [truncateContent, if_pos h]
  · intro h; rw [truncateContent, if_neg (by omega)]

/-- Witness for C2 at a concrete 4001-character text. -/
theorem C2_truncation_witness :
    4000 < (List.replicate 4001 'a' : Str).length
    ∧ truncateContent (List.replicate 4001 'a')
        = (List.replicate 4001 'a' : Str).take 4000 ++ truncMarker :=
  ⟨by rw [List.length_replicate]; omega,
   (C2_truncation (List.replicate 4001 'a')).1 (by rw [List.length_replicate]; omega)⟩

/-- C3: with zero search results `get_wiki_knowledge` returns exactly the
fixed sentinel, and `process_query` handed that sentinel returns it
unchanged with zero backend invocations. -/
theorem C3_no_results_sentinel (fetch : Str → Option Str)
    (backend : Str → Except Str Str) (q : Str) :
    get_wiki_knowledge fetch [] = noPagesSentinel
    ∧ process_query backend q noPagesSentinel = (noPagesSentinel, 0) := by
  refine ⟨rfl, ?_⟩
  rw [process_query, if_pos (by decide : occurs noPagesNeedle noPagesSentinel = true)]

/-- C9: `process_query` short-circuits on substring CONTAINMENT of the
needle `"No relevant Arch Wiki pages found"` (Python `in`, line 193):
every blob containing it — not only the sentinel itself — is returned
verbatim with zero backend invocations. -/
theorem C9_substring_short_circuit (backend : Str → Except Str Str)
    (q blob : Str) (h : occurs noPagesNeedle blob = true) :
    process_query backend q blob = (blob, 0) := by
  rw [process_query, if_pos h]

/-- A blob of genuinely fetched page content that happens to quote the
needle phrase; it differs from the sentinel. -/
def quotingBlob : Str :=
  str "### Pacman\nURL: u\nContent:\nNo relevant Arch Wiki pages found is a phrase quoted inside a fetched page\n\n"

/-- Witness for C9: the quoting blob contains the needle, is not the
sentinel, and short-circuits. -/
theorem C9_witness :
    occurs noPagesNeedle quotingBlob = true
    ∧ quotingBlob ≠ noPagesSentinel
    ∧ process_query (fun p => Except.ok p) (str "q") quotingBlob = (quotingBlob, 0) :=
  ⟨by decide, by decide,
   C9_substring_short_circuit (fun p => Except.ok p) (str "q") quotingBlob (by decide)⟩

/-- C5: after every `save_to_history` the log holds at most 50 entries,
the new entry is its last element, the saved log is the appended log
minus an evicted oldest-first prefix (FIFO), and an append onto 49 or
more entries leaves exactly 50. -/
theorem C5_history_bound (history : List HistoryEntry) (e : HistoryEntry) :
    (save_to_history history e).length ≤ 50
    ∧ (save_to_history history e).getLast? = some e
    ∧ (history ++ [e]).take ((history ++ [e]).length - 50) ++ save_to_history history e
        = history ++ [e]
    ∧ (49 ≤ history.length → (save_to_history history e).length = 50) := by
  refine ⟨?_, ?_, ?_, ?_⟩
  · rw [save_to_history, List.length_drop]; omega
  · rw [save_to_history,
      List.drop_append_of_le_length (by simp),
      List.getLast?_concat]
  · exact List.take_append_drop _ _
  · intro h
    rw [save_to_history, List.length_drop, List.length_append]
    simp; omega

/-- A sample old history entry. -/
def oldEntry : HistoryEntry := ⟨str "q", str "r", str "t"⟩

/-- A sample new history entry. -/
def newEntry : HistoryEntry := ⟨str "Q", str "R", str "T"⟩

/-- Witness for C5: appending a 51st entry onto a full log of 50 keeps
exactly 50 entries with the new entry last. -/
theorem C5_history_bound_witness :
    49 ≤ (List.replicate 50 oldEntry).length
    ∧ (save_to_history (List.replicate 50 oldEntry) newEntry).length = 50
    ∧ (save_to_history (List.replicate 50 oldEntry) newEntry).getLast? = some newEntry :=
  ⟨by rw [List.length_replicate]; omega,
   (C5_history_bound (List.replicate 50 oldEntry) newEntry).2.2.2
     (by rw [List.length_replicate]; omega),
   (C5_history_bound (List.replicate 50 oldEntry) newEntry).2.1⟩

/-- C7: when the backend raises, `get_ai_response` returns the fixed
fallback string embedding the failure detail, that string contains the
wiki root URL, the backend was invoked exactly once, and (being a total
function into `Str × Nat`) nothing propagates to the caller. -/
theorem C7_backend_failure (backend : Str → Except Str Str) (q w e : Str)
    (hb : backend (full_prompt q w) = Except.error e) :
    (get_ai_response backend q w).1 = errHead ++ e ++ errTail
    ∧ OccursIn (str "https://wiki.archlinux.org") (get_ai_response backend q w).1
    ∧ (get_ai_response backend q w).2 = 1
    ∧ (∀ b : Str → Except Str Str, (get_ai_response b q w).2 = 1) := by
  have honce : ∀ b : Str → Except Str Str, (get_ai_response b q w).2 = 1 := by
    intro b
    rw [get_ai_response]
    cases b (full_prompt q w) <;> rfl
  rw [get_ai_response, hb]
  refine ⟨rfl, ⟨errHead ++ e ++ str "\n\nPlease check the Arch Wiki directly at: ", [], ?_⟩, rfl,
    honce⟩
  have hsplit : errTail
      = str "\n\nPlease check the Arch Wiki directly at: " ++ str "https://wiki.archlinux.org" := by
    decide
  simp [hsplit, List.append_assoc]

/-- Witness for C7 with a concrete always-failing backend. -/
theorem C7_backend_failure_witness :
    (fun _ : Str => (Except.error (str "quota exceeded") : Except Str Str))
        (full_prompt (str "how do I update my system?") (str "ctx"))
      = Except.error (str "quota exceeded")
    ∧ (get_ai_response (fun _ : Str => (Except.error (str "quota exceeded") : Except Str Str))
        (str "how do I update my system?") (str "ctx")).1
      = errHead ++ str "quota exceeded" ++ errTail :=
  ⟨rfl,
   (C7_backend_failure (fun _ => Except.error (str "quota exceeded"))
     (str "how do I update my system?") (str "ctx") (str "quota exceeded") rfl).1⟩

/-- C4, claim as stated, refuted: the end tag of a NESTED `div` inside
the content container does end accumulation (line 35 tests only `tag in
['div'] and self.in_content`, not which element is closing): after
opening the container, opening a plain nested `div` and closing it, the
extractor is no longer in the content region although the container is
still open, and subsequent data is dropped. -/
theorem C4_counterexample :
    (runExtractor [HtmlEvent.startTag "div" [("id", "mw-content-text")],
        HtmlEvent.startTag "div" [], HtmlEvent.endTag "div"]).in_content = false
    ∧ (runExtractor [HtmlEvent.startTag "div" [("id", "mw-content-text")],
        HtmlEvent.startTag "div" [], HtmlEvent.endTag "div",
        HtmlEvent.data "text before the container itself closes",
        HtmlEvent.endTag "div"]).text_content = [] := by
  constructor <;> decide

/-- Helper: while `in_content` is false and no event carries a
content-container `id`, the extractor accumulates nothing and stays
outside the content region. -/
theorem foldl_no_content (evs : List HtmlEvent) (st : ExtractorState)
    (hin : st.in_content = false)
    (hno : ∀ tag attrs, HtmlEvent.startTag tag attrs ∈ evs → attrsOpenContent attrs = false) :
    (List.foldl step st evs).text_content = st.text_content
    ∧ (List.foldl step st evs).in_content = false := by
  induction evs generalizing st with
  | nil => exact ⟨rfl, hin⟩
  | cons ev rest ih =>
    have hrest : ∀ tag attrs, HtmlEvent.startTag tag attrs ∈ rest → attrsOpenContent attrs = false :=
      fun tag attrs hm => hno tag attrs (List.mem_cons_of_mem _ hm)
    cases ev with
    | startTag tag attrs =>
      have ha : attrsOpenContent attrs = false := hno tag attrs (List.mem_cons_self _ _)
      rw [List.foldl_cons]
      have h1 : (step st (HtmlEvent.startTag tag attrs)).in_content = false := by
        simp [step, handle_starttag, hin, ha]
      have h2 : (step st (HtmlEvent.startTag tag attrs)).text_content = st.text_content := by
        simp [step, handle_starttag]
      obtain ⟨ht, hi⟩ := ih _ h1 hrest
      exact ⟨ht.trans h2, hi⟩
    | endTag tag =>
      have hstep : step st (HtmlEvent.endTag tag) = st := by
        simp [step, handle_endtag, hin]
      rw [List.foldl_cons, hstep]
      exact ih st hin hrest
    | data s =>
      have hstep : step st (HtmlEvent.data s) = st := by
        simp [step, handle_data, hin]
      rw [List.foldl_cons, hstep]
      exact ih st hin hrest

/-- C4 (amended): the extractor enters the content region only at a
start tag whose `id` is `mw-content-text` or `bodyContent` (without one,
nothing is ever accumulated), and accumulation ends at the FIRST `div`
end tag seen while in the region — whether it closes the container or a
div nested inside it — while end tags of non-`div` elements never end
it. -/
theorem C4_content_region (st : ExtractorState) (tag : String) (evs : List HtmlEvent)
    (hno : ∀ t attrs, HtmlEvent.startTag t attrs ∈ evs → attrsOpenContent attrs = false) :
    (handle_endtag st tag).in_content = (st.in_content && !(tag == "div"))
    ∧ (runExtractor evs).text_content = [] := by
  constructor
  · rw [handle_endtag]
    cases htag : (tag == "div") <;> cases hin : st.in_content <;> simp [htag, hin]
  · exact (foldl_no_content evs initState rfl hno).1

/-- Witness for C4 at a concrete state and event list without any
content-container `id`. -/
theorem C4_content_region_witness :
    (handle_endtag ⟨[], true, some "div"⟩ "span").in_content
      = ((⟨[], true, some "div"⟩ : ExtractorState).in_content && !("span" == "div"))
    ∧ (runExtractor [HtmlEvent.data "just some words", HtmlEvent.endTag "div"]).text_content
      = [] :=
  C4_content_region ⟨[], true, some "div"⟩ "span"
    [HtmlEvent.data "just some words", HtmlEvent.endTag "div"]
    (by intro t a h; simp at h)

/-- Helper: `handle_data` in the content region outside denylisted tags
appends the trimmed fragment exactly when it is nonempty and longer than
3 characters, touching nothing else. -/
theorem handle_data_effect (st : ExtractorState) (d : String)
    (h1 : st.in_content = true) (h2 : tagSkipped st.current_tag = false) :
    handle_data st d
      = { st with text_content := st.text_content
            ++ if d.trim ≠ "" ∧ 3 < d.trim.length then [d.trim] else [] } := by
  obtain ⟨tc, ic, ct⟩ := st
  dsimp only at h1 h2 ⊢
  subst h1
  rw [handle_data, h2]
  simp only [Bool.not_false, Bool.and_self, if_true]
  split
  · rfl
  · simp

/-- Helper: a run of data events from a state inside the content region
(current tag not denylisted) appends exactly the trimmed fragments longer
than 3 characters, in order. -/
theorem foldl_data_run (ds : List String) (st : ExtractorState)
    (h1 : st.in_content = true) (h2 : tagSkipped st.current_tag = false) :
    List.foldl step st (ds.map HtmlEvent.data)
      = { st with text_content := st.text_content
            ++ (ds.map String.trim).filter (fun c => decide (c ≠ "" ∧ 3 < c.length)) } := by
  induction ds generalizing st with
  | nil => simp
  | cons d rest ih =>
    have hrec := ih { st with text_content := st.text_content
        ++ if d.trim ≠ "" ∧ 3 < d.trim.length then [d.trim] else [] } h1 h2
    rw [List.map_cons, List.foldl_cons,
      show step st (HtmlEvent.data d) = handle_data st d from rfl,
      handle_data_effect st d h1 h2, hrec]
    by_cases hcond : d.trim ≠ "" ∧ 3 < d.trim.length
    · simp [hcond, List.filter_cons, List.append_assoc]
    · simp [hcond, List.filter_cons]

/-- C8: feeding the extractor the content-container start tag followed by
any sequence of text fragments yields, as `text_content`, exactly the
trimmed fragments whose trimmed length exceeds 3, in document order, and
`get_text` joins them with a single space into one flat string. -/
theorem C8_fragment_policy (ds : List String) :
    (runExtractor (HtmlEvent.startTag "div" [("id", "mw-content-text")] :: ds.map HtmlEvent.data)).text_content
      = (ds.map String.trim).filter (fun c => decide (c ≠ "" ∧ 3 < c.length))
    ∧ get_text (runExtractor (HtmlEvent.startTag "div" [("id", "mw-content-text")] :: ds.map HtmlEvent.data))
      = " ".intercalate ((ds.map String.trim).filter (fun c => decide (c ≠ "" ∧ 3 < c.length))) := by
  have hstart : step initState (HtmlEvent.startTag "div" [("id", "mw-content-text")])
      = ⟨[], true, some "div"⟩ := by decide
  have hrun := foldl_data_run ds ⟨[], true, some "div"⟩ rfl (by decide)
  constructor
  · rw [runExtractor, List.foldl_cons, hstart, hrun]
    simp
  · rw [get_text, runExtractor, List.foldl_cons, hstart, hrun]
    simp

/-- C10: closing a denylisted tag does not reset `current_tag` (line 34's
`handle_endtag` never touches it), so text that follows the denylisted
tag's end tag but precedes the next start tag is dropped along with the
denylisted content. -/
theorem C10_stale_denylist_tag (st : ExtractorState) (t d : String)
    (ht : t ∈ skip_tags) (hc : st.current_tag = some t) :
    (step st (HtmlEvent.endTag t)).current_tag = some t
    ∧ (step (step st (HtmlEvent.endTag t)) (HtmlEvent.data d)).text_content
      = st.text_content := by
  have hend : (step st (HtmlEvent.endTag t)).current_tag = some t ∧
      (step st (HtmlEvent.endTag t)).text_content = st.text_content := by
    rw [step, handle_endtag]
    split
    · exact ⟨hc, rfl⟩
    · exact ⟨hc, rfl⟩
  have hskip : tagSkipped (step st (HtmlEvent.endTag t)).current_tag = true := by
    rw [hend.1, tagSkipped]
    exact List.elem_eq_true_of_mem ht
  refine ⟨hend.1, ?_⟩
  rw [show step (step st (HtmlEvent.endTag t)) (HtmlEvent.data d)
      = handle_data (step st (HtmlEvent.endTag t)) d from rfl,
    handle_data, hskip]
  simpa using hend.2

/-- Witness for C10: after `</script>` the marker still reads `script`,
so the following stray data is dropped. -/
theorem C10_stale_denylist_tag_witness :
    "script" ∈ skip_tags
    ∧ (step (step ⟨["existing"], true, some "script"⟩ (HtmlEvent.endTag "script"))
        (HtmlEvent.data "trailing text after script end")).text_content = ["existing"] :=
  ⟨by decide,
   (C10_stale_denylist_tag ⟨["existing"], true, some "script"⟩ "script"
     "trailing text after script end" (by decide) rfl).2⟩

/-- Helper: a substring occurrence of `n ++ m` yields one of `n`. -/
theorem OccursIn.of_append_right {n m h : Str} (o : OccursIn (n ++ m) h) : OccursIn n h := by
  obtain ⟨pre, post, rfl⟩ := o
  exact ⟨pre, m ++ post, by simp [List.append_assoc]⟩

/-- Helper: the block of every page among the first two search results
occurs verbatim in the assembled context blob. -/
theorem pageBlock_occurs (fetch : Str → Option Str) (pages : List WikiPage) :
    ∀ p ∈ pages.take 2, OccursIn (pageBlock fetch p) (get_wiki_knowledge fetch pages) := by
  cases pages with
  | nil => intro p hp; simp at hp
  | cons p1 rest =>
    cases rest with
    | nil =>
      intro p hp
      have hp' : p = p1 := by simpa using hp
      subst hp'
      exact ⟨str "=== ARCH WIKI CONTENT ===\n\n", [],
        by simp [get_wiki_knowledge, cat]⟩
    | cons p2 rest2 =>
      intro p hp
      have hp' : p = p1 ∨ p = p2 := by
        simpa using hp
      rcases hp' with h | h <;> rw [h]
      · exact ⟨str "=== ARCH WIKI CONTENT ===\n\n",
          pageBlock fetch p2
            ++ (if 2 < (p1 :: p2 :: rest2).length then
                  str "Additional relevant pages:\n" ++ cat ((p1 :: p2 :: rest2).drop 2 |>.map citeLine)
                else []),
          by simp [get_wiki_knowledge, cat, List.append_assoc]⟩
      · exact ⟨str "=== ARCH WIKI CONTENT ===\n\n" ++ pageBlock fetch p1,
          (if 2 < (p1 :: p2 :: rest2).length then
             str "Additional relevant pages:\n" ++ cat ((p1 :: p2 :: rest2).drop 2 |>.map citeLine)
           else []),
          by simp [get_wiki_knowledge, cat, List.append_assoc]⟩

/-- Helper: the `### <title>` / `URL: <url>` head of every page among the
first two search results occurs in the assembled context blob. -/
theorem blockHead_occurs (fetch : Str → Option Str) (pages : List WikiPage) :
    ∀ p ∈ pages.take 2, OccursIn (blockHead p) (get_wiki_knowledge fetch pages) :=
  fun p hp => OccursIn.of_append_right
    (show OccursIn (blockHead p ++ pageTail fetch p) _ from pageBlock_occurs fetch pages p hp)

/-- C1: for a nonempty search result list the context blob starts with
the fixed header, contains the `### <title>` block with its `URL: <url>`
line for each of the first 2 results, and with more than 2 results it is
exactly the header, the two blocks in search order, and the trailing
`Additional relevant pages:` section listing every further result as a
citation-only `- <title>: <url>` line (no fetched content). -/
theorem C1_blob_structure (fetch : Str → Option Str) (pages : List WikiPage)
    (hne : pages ≠ []) :
    (∃ post, get_wiki_knowledge fetch pages = str "=== ARCH WIKI CONTENT ===\n\n" ++ post)
    ∧ (∀ p ∈ pages.take 2, OccursIn (blockHead p) (get_wiki_knowledge fetch pages))
    ∧ (2 < pages.length →
        get_wiki_knowledge fetch pages
          = str "=== ARCH WIKI CONTENT ===\n\n"
            ++ cat ((pages.take 2).map (pageBlock fetch))
            ++ (str "Additional relevant pages:\n" ++ cat ((pages.drop 2).map citeLine)))
    ∧ get_wiki_knowledge fetch pages
        = str "=== ARCH WIKI CONTENT ===\n\n"
          ++ cat ((pages.take 2).map (pageBlock fetch))
          ++ (if 2 < pages.length then
                str "Additional relevant pages:\n" ++ cat ((pages.drop 2).map citeLine)
              else []) := by
  refine ⟨?_, blockHead_occurs fetch pages, ?_, ?_⟩
  · refine ⟨cat ((pages.take 2).map (pageBlock fetch))
      ++ (if 2 < pages.length then
            str "Additional relevant pages:\n" ++ cat ((pages.drop 2).map citeLine)
          else []), ?_⟩
    rw [get_wiki_knowledge, if_neg (by simp [hne]), List.append_assoc]
  · intro hlen
    rw [get_wiki_knowledge, if_neg (by simp [hne]), if_pos hlen, List.append_assoc]
  · rw [get_wiki_knowledge, if_neg (by simp [hne])]

/-- Sample pages and fetch outcome for the C1 witness. -/
def samplePages : List WikiPage :=
  [⟨str "Pacman", str "https://wiki.archlinux.org/title/Pacman"⟩,
   ⟨str "Mirrors", str "https://wiki.archlinux.org/title/Mirrors"⟩,
   ⟨str "Reflector", str "https://wiki.archlinux.org/title/Reflector"⟩]

/-- A fetch outcome: content for the first page, failure for the others. -/
def sampleFetch : Str → Option Str :=
  fun t => if t = str "Pacman" then some (str "pacman is the package manager") else none

/-- Witness for C1 at three concrete search results. -/
theorem C1_blob_structure_witness :
    samplePages ≠ []
    ∧ 2 < samplePages.length
    ∧ get_wiki_knowledge sampleFetch samplePages
        = str "=== ARCH WIKI CONTENT ===\n\n"
          ++ cat ((samplePages.take 2).map (pageBlock sampleFetch))
          ++ (str "Additional relevant pages:\n" ++ cat ((samplePages.drop 2).map citeLine)) :=
  ⟨by simp [samplePages], by simp [samplePages],
   (C1_blob_structure sampleFetch samplePages (by simp [samplePages])).2.2.1
     (by simp [samplePages])⟩

/-- C6: when the fetch of a page among the first two fails, the blob
still carries that page's `###` block with the fixed placeholder body,
and every page among the first two keeps its `###` block (retrieval is
per-page; `get_wiki_knowledge` is a total function, so no failure
escapes it). -/
theorem C6_partial_fetch (fetch : Str → Option Str) (pages : List WikiPage) (p : WikiPage)
    (hp : p ∈ pages.take 2) (hf : fetch p.title = none) :
    OccursIn (blockHead p ++ noContentPlaceholder) (get_wiki_knowledge fetch pages)
    ∧ ∀ q ∈ pages.take 2, OccursIn (blockHead q) (get_wiki_knowledge fetch pages) := by
  refine ⟨?_, blockHead_occurs fetch pages⟩
  have hpb : pageBlock fetch p = blockHead p ++ noContentPlaceholder := by
    rw [pageBlock, pageTail, hf]
  rw [← hpb]
  exact pageBlock_occurs fetch pages p hp

/-- Witness for C6: the second sample page's fetch fails, yet its block
appears with the placeholder. -/
theorem C6_partial_fetch_witness :
    (⟨str "Mirrors", str "https://wiki.archlinux.org/title/Mirrors"⟩ : WikiPage) ∈ samplePages.take 2
    ∧ sampleFetch (str "Mirrors") = none
    ∧ OccursIn (blockHead ⟨str "Mirrors", str "https://wiki.archlinux.org/title/Mirrors"⟩
        ++ noContentPlaceholder) (get_wiki_knowledge sampleFetch samplePages) :=
  ⟨by simp [samplePages], by decide,
   (C6_partial_fetch sampleFetch samplePages
     ⟨str "Mirrors", str "https://wiki.archlinux.org/title/Mirrors"⟩
     (by simp [samplePages]) (by decide)).1⟩
